import Mathlib

/-!
Shallow embedding of the pygame-flappy-bird runtime core
(`src/scene.py`, `src/display.py`, `src/game.py`, `src/asset.py`)
with proofs of the specified properties of the scene stack,
the letterbox presentation geometry, the main loop, and the asset cache.

Scene instances are identified by natural numbers; lifecycle callbacks
(`on_enter` / `on_exit`) are recorded as events rather than executed, so
that call counts and ordering can be stated and proved.  Python operations
that can raise (`list.pop()` on an empty list, division by zero) are
modelled with `Option`: `none` means the Python code would raise.
-/

/-- Scene instances are identified by a natural number (standing for Python
object identity of a `Scene` subclass instance). -/
abbrev SceneId := Nat

/-- A lifecycle callback event: which scene received `on_enter` / `on_exit`.
Mirrors the calls `self.current.on_enter()` and `self.current.on_exit()`
in `src/scene.py`. -/
inductive LifecycleEv where
  | enter (s : SceneId)
  | exit  (s : SceneId)
  deriving DecidableEq, Repr

/-- State of `SceneManager` (`src/scene.py` lines 62-67): the stack of
active scenes (`self.scenes`, last element = top) and the scene currently
in control (`self.current`). -/
structure SceneManager where
  scenes  : List SceneId
  current : Option SceneId
  deriving DecidableEq, Repr

/-- Initial `SceneManager` state (`SceneManager.__init__`): no scenes. -/
def smInit : SceneManager := ⟨[], none⟩

/-- Python `list.pop()`: removes the last element, raising `IndexError`
(modelled as `none`) on an empty list.  Only the remaining list is needed
by the callers in `src/scene.py`. -/
def pyPopLast (l : List SceneId) : Option (List SceneId) :=
  if l = [] then none else some l.dropLast

/-- `SceneManager.push` (`src/scene.py` lines 69-81): if a current scene
exists, call its `on_exit`; append the new scene; make it current; call its
`on_enter`.  Returns the new state and the lifecycle events in call order. -/
def smPush (m : SceneManager) (s : SceneId) : SceneManager × List LifecycleEv :=
  let exitEvs : List LifecycleEv :=
    match m.current with
    | some c => [LifecycleEv.exit c]
    | none => []
  (⟨m.scenes ++ [s], some s⟩, exitEvs ++ [LifecycleEv.enter s])

/-- `SceneManager.pop` (`src/scene.py` lines 83-93): if a current scene
exists, call its `on_exit` and pop the list; the new current is the new top
of the list (or `none`); if a new current exists, call its `on_enter`.
Returns `none` exactly when the Python code would raise
(`self.scenes.pop()` on an empty list). -/
def smPop (m : SceneManager) : Option (SceneManager × List LifecycleEv) :=
  match m.current with
  | some c =>
    match pyPopLast m.scenes with
    | none => none
    | some rest =>
      let cur := rest.getLast?
      some (⟨rest, cur⟩,
        LifecycleEv.exit c ::
          (match cur with
           | some c2 => [LifecycleEv.enter c2]
           | none => []))
  | none =>
    let cur := m.scenes.getLast?
    some (⟨m.scenes, cur⟩,
      match cur with
      | some c2 => [LifecycleEv.enter c2]
      | none => [])

/-- `SceneManager.switch` (`src/scene.py` lines 95-108): if a current scene
exists, call its `on_exit` and pop the list; append the new scene; make it
current; call its `on_enter`.  Returns `none` exactly when the Python code
would raise. -/
def smSwitch (m : SceneManager) (s : SceneId) : Option (SceneManager × List LifecycleEv) :=
  match m.current with
  | some c =>
    match pyPopLast m.scenes with
    | none => none
    | some rest =>
      some (⟨rest ++ [s], some s⟩, [LifecycleEv.exit c, LifecycleEv.enter s])
  | none =>
    some (⟨m.scenes ++ [s], some s⟩, [LifecycleEv.enter s])

/-- `SceneManager.handle_events` (`src/scene.py` lines 110-118): forwards
the events to the current scene if one exists.  The result is the scene
that receives the call, `none` meaning the call is a no-op. -/
def smHandleEvents (m : SceneManager) : Option SceneId :=
  match m.current with
  | some c => some c
  | none => none

/-- `SceneManager.update` (`src/scene.py` lines 120-128): forwards
`delta_time` to the current scene if one exists.  The result is the scene
that receives the call, `none` meaning the call is a no-op. -/
def smUpdate (m : SceneManager) : Option SceneId :=
  match m.current with
  | some c => some c
  | none => none

/-- `SceneManager.draw` (`src/scene.py` lines 130-138): forwards the
surface to the current scene if one exists.  The result is the scene that
receives the call, `none` meaning the call is a no-op. -/
def smDraw (m : SceneManager) : Option SceneId :=
  match m.current with
  | some c => some c
  | none => none

/-- A transition request on the scene manager. -/
inductive SceneOp where
  | push   (s : SceneId)
  | pop
  | switch (s : SceneId)
  deriving DecidableEq, Repr

/-- One transition step of the scene manager. -/
def smStep (m : SceneManager) : SceneOp → Option (SceneManager × List LifecycleEv)
  | SceneOp.push s => some (smPush m s)
  | SceneOp.pop => smPop m
  | SceneOp.switch s => smSwitch m s

/-- Run a sequence of transitions, concatenating the emitted lifecycle
events; `none` if any step raises. -/
def smRun (m : SceneManager) : List SceneOp → Option (SceneManager × List LifecycleEv)
  | [] => some (m, [])
  | op :: ops =>
    match smStep m op with
    | none => none
    | some (m1, evs) =>
      match smRun m1 ops with
      | none => none
      | some (m2, evs2) => some (m2, evs ++ evs2)

/-- Number of `on_enter` calls received by scene `s` in an event list. -/
def enterCount (s : SceneId) (evs : List LifecycleEv) : Nat :=
  evs.count (LifecycleEv.enter s)

/-- Number of `on_exit` calls received by scene `s` in an event list. -/
def exitCount (s : SceneId) (evs : List LifecycleEv) : Nat :=
  evs.count (LifecycleEv.exit s)

/-- Number of times scene `s` became current during a run: the number of
transitions that install `s` as the `current` scene (each `push`, `switch`
and non-degenerate `pop` reassigns `current`; the transition activates `s`
when the value installed is `s`).  Defined from the state trace alone,
independently of the emitted lifecycle events.  `none` if a step raises. -/
def smActivations (s : SceneId) (m : SceneManager) : List SceneOp → Option Nat
  | [] => some 0
  | op :: ops =>
    match smStep m op with
    | none => none
    | some (m1, _) =>
      (smActivations s m1 ops).map
        (fun k => (if m1.current = some s then 1 else 0) + k)

/-- Number of times scene `s` ceased being current during a run: the number
of transitions executed while `s` was the `current` scene (every `push`,
`pop` and `switch` deactivates the pre-transition current scene when one
exists, even if the same scene is immediately reactivated).  Defined from
the state trace alone.  `none` if a step raises. -/
def smDeactivations (s : SceneId) (m : SceneManager) : List SceneOp → Option Nat
  | [] => some 0
  | op :: ops =>
    match smStep m op with
    | none => none
    | some (m1, _) =>
      (smDeactivations s m1 ops).map
        (fun k => (if m.current = some s then 1 else 0) + k)

/-- Within one transition, every `on_exit` precedes every `on_enter`: once
an `enter` event occurs, all later events in the list are `enter` events. -/
def exitsThenEnters : List LifecycleEv → Bool
  | [] => true
  | LifecycleEv.enter _ :: rest =>
    rest.all (fun e => match e with | LifecycleEv.enter _ => true | _ => false)
  | LifecycleEv.exit _ :: rest => exitsThenEnters rest

/-- The `on_exit` call emitted for an outgoing current scene, if any. -/
def exitEvOf : Option SceneId → List LifecycleEv
  | some c => [LifecycleEv.exit c]
  | none => []

/-- The `on_enter` call emitted for an incoming current scene, if any. -/
def enterEvOf : Option SceneId → List LifecycleEv
  | some c => [LifecycleEv.enter c]
  | none => []

/-- Geometry computed by `DisplayManager.present` (`src/display.py` lines
37-48): the uniform scale factor, the scaled blit size, and the centering
offsets of the blit inside the window. -/
structure PresentGeometry where
  scale    : ℚ
  scaled_w : ℤ
  scaled_h : ℤ
  x        : ℤ
  y        : ℤ
  deriving DecidableEq, Repr

/-- Python `int()` applied to a (here exactly represented) float: truncation
toward zero. -/
def pyInt (q : ℚ) : ℤ :=
  if q < 0 then ⌈q⌉ else ⌊q⌋

/-- Python `min(a, b)`: `a` if `a <= b`, else `b`. -/
def pyMin (a b : ℚ) : ℚ := if a ≤ b then a else b

/-- The arithmetic of `DisplayManager.present` (`src/display.py` lines
37-48), parametrised by the internal surface size `(surf_w, surf_h)` and
the current window size `(win_w, win_h)`:

  scale    = min(win_w / surf_w, win_h / surf_h)
  scaled_w = int(surf_w * scale)
  scaled_h = int(surf_h * scale)
  x        = (win_w - scaled_w) // 2
  y        = (win_h - scaled_h) // 2

Python `/` on these quantities is float division (exact on the ranges the
spec discusses, modelled in `ℚ`), `int()` truncates toward zero and `//`
is floor division.  `none` models the `ZeroDivisionError` Python raises
when a surface dimension is zero; the window dimensions are used exactly
as reported, without any clamping. -/
def presentGeometry (surf_w surf_h win_w win_h : ℕ) : Option PresentGeometry :=
  if surf_w = 0 ∨ surf_h = 0 then none
  else
    let scale : ℚ := pyMin ((win_w : ℚ) / (surf_w : ℚ)) ((win_h : ℚ) / (surf_h : ℚ))
    let scaled_w : ℤ := pyInt ((surf_w : ℚ) * scale)
    let scaled_h : ℤ := pyInt ((surf_h : ℚ) * scale)
    let x : ℤ := Int.fdiv ((win_w : ℤ) - scaled_w) 2
    let y : ℤ := Int.fdiv ((win_h : ℤ) - scaled_h) 2
    some ⟨scale, scaled_w, scaled_h, x, y⟩

/-- The `dt` value `Game.update` passes to the scene stack
(`src/game.py` line 42): `self.clock.get_time() / 1000.0`, where
`get_time` reports the elapsed milliseconds of the previous frame as an
integer.  No clamping is applied. -/
def gameDt (ms : ℤ) : ℚ := (ms : ℚ) / 1000

/-- Environment input for one main-loop iteration: whether the polled
event batch contains a `pygame.QUIT` event, and the clock's elapsed-time
reading in milliseconds for `Game.update`. -/
structure Frame where
  hasQuit : Bool
  clockMs : ℤ
  deriving DecidableEq, Repr

/-- Observable actions of `Game.run` (`src/game.py` lines 66-77), in the
order the code performs them. -/
inductive GameAct where
  | pollEvents
  | forwardEvents (hasQuit : Bool)
  | updateScenes (dt : ℚ)
  | clearAndDraw
  | presentFrame
  | paceFrame
  | shutdown
  deriving DecidableEq, Repr

/-- The actions of one iteration of the `while self.running` loop
(`src/game.py` lines 71-76): `handle_events` polls the events and forwards
the full batch to the scene stack (after scanning it for `QUIT`), then
`update` passes `dt` to the stack, then `draw` clears the internal surface
and forwards it, then `present`, then `tick`. -/
def iterActs (f : Frame) : List GameAct :=
  [GameAct.pollEvents, GameAct.forwardEvents f.hasQuit,
   GameAct.updateScenes (gameDt f.clockMs), GameAct.clearAndDraw,
   GameAct.presentFrame, GameAct.paceFrame]

/-- `Game.run` (`src/game.py` lines 66-77): while `running`, perform one
full iteration; `handle_events` sets `running` to `False` when the batch
contains a `QUIT` event (`src/game.py` lines 31-34), which is observed at
the top of the next iteration; on exit, `pygame.quit()` shuts the backends
down once.  The environment supplies a finite list of frames; `none`
means the supply was exhausted while the loop was still running. -/
def gameRun : Bool → List Frame → Option (List GameAct)
  | false, _ => some [GameAct.shutdown]
  | true, [] => none
  | true, f :: fs =>
    (gameRun (!f.hasQuit) fs).map (fun tr => iterActs f ++ tr)

/-- Identity of a backing-storage location read by `AssetManager`
(`src/asset.py`): `favicon.ico` in the assets root, a file in
`assets/textures/`, or a file in `assets/sounds/` (the three shapes
produced by `os.path.join` in `load_icon`, `load_image`, `load_sound`). -/
inductive AssetPath where
  | favicon
  | texture (name : String)
  | sound (name : String)
  deriving DecidableEq, Repr

/-- State of `AssetManager` (`src/asset.py` lines 14-23): the two cache
dictionaries, plus a log of the fetches performed against backing storage
(each `pygame.image.load` / `pygame.mixer.Sound` call, in order).  Handles
are natural numbers produced by an abstract `disk` function. -/
structure AssetManager where
  images  : List (String × Nat)
  sounds  : List (String × Nat)
  fetched : List AssetPath
  deriving DecidableEq, Repr

/-- Initial `AssetManager` state: empty caches, nothing fetched. -/
def amInit : AssetManager := ⟨[], [], []⟩

/-- `AssetManager.load_icon` (`src/asset.py` lines 25-38): if the key
`"icon"` is not in `self.images`, load `favicon.ico` from the assets root
and store it under `"icon"`; return the cached surface. -/
def load_icon (disk : AssetPath → Nat) (m : AssetManager) : Nat × AssetManager :=
  match m.images.lookup "icon" with
  | some h => (h, m)
  | none =>
    let h := disk AssetPath.favicon
    (h, { m with images := ("icon", h) :: m.images,
                 fetched := m.fetched ++ [AssetPath.favicon] })

/-- `AssetManager.load_image` (`src/asset.py` lines 40-54): if `name` is
not in `self.images`, load `assets/textures/<name>` and store it under
`name`; return the cached surface. -/
def load_image (disk : AssetPath → Nat) (m : AssetManager) (name : String) :
    Nat × AssetManager :=
  match m.images.lookup name with
  | some h => (h, m)
  | none =>
    let h := disk (AssetPath.texture name)
    (h, { m with images := (name, h) :: m.images,
                 fetched := m.fetched ++ [AssetPath.texture name] })

/-- `AssetManager.load_sound` (`src/asset.py` lines 56-70): if `name` is
not in `self.sounds`, load `assets/sounds/<name>` and store it under
`name`; return the cached sound. -/
def load_sound (disk : AssetPath → Nat) (m : AssetManager) (name : String) :
    Nat × AssetManager :=
  match m.sounds.lookup name with
  | some h => (h, m)
  | none =>
    let h := disk (AssetPath.sound name)
    (h, { m with sounds := (name, h) :: m.sounds,
                 fetched := m.fetched ++ [AssetPath.sound name] })

/-- A call to the asset manager. -/
inductive AssetOp where
  | loadIcon
  | loadImage (name : String)
  | loadSound (name : String)
  deriving DecidableEq, Repr

/-- Perform one asset-manager call, keeping only the state. -/
def amStep (disk : AssetPath → Nat) (m : AssetManager) : AssetOp → AssetManager
  | AssetOp.loadIcon => (load_icon disk m).2
  | AssetOp.loadImage name => (load_image disk m name).2
  | AssetOp.loadSound name => (load_sound disk m name).2

/-- Run a sequence of asset-manager calls. -/
def amRun (disk : AssetPath → Nat) (m : AssetManager) : List AssetOp → AssetManager
  | [] => m
  | op :: ops => amRun disk (amStep disk m op) ops

/-- Cache-coverage invariant of the asset manager: every fetched path has a
handle cached under its corresponding dictionary key (`load_icon` stores
the favicon under the key `"icon"` of the image dictionary). -/
def amCovered (m : AssetManager) : Prop :=
  (AssetPath.favicon ∈ m.fetched → (m.images.lookup "icon").isSome = true) ∧
  (∀ n, AssetPath.texture n ∈ m.fetched → (m.images.lookup n).isSome = true) ∧
  (∀ n, AssetPath.sound n ∈ m.fetched → (m.sounds.lookup n).isSome = true)

/-- A sample backing store giving the favicon and the texture named
`"icon"` distinct handles. -/
def sampleDisk : AssetPath → Nat
  | AssetPath.favicon => 0
  | AssetPath.texture _ => 1
  | AssetPath.sound _ => 2

/-! ### Helper lemmas for the scene stack -/

/-- A state whose `current` field is the top of the stack takes any step
without raising, and the property is preserved. -/
theorem smStep_total_inv (m : SceneManager) (h : m.current = m.scenes.getLast?)
    (op : SceneOp) :
    ∃ m1 evs, smStep m op = some (m1, evs) ∧ m1.current = m1.scenes.getLast? := by
  cases op with
  | push s =>
    refine ⟨_, _, rfl, ?_⟩
    simp [smPush, List.getLast?_concat]
  | pop =>
    cases hc : m.current with
    | none =>
      simp only [smStep, smPop, hc]
      exact ⟨_, _, rfl, rfl⟩
    | some c =>
      have hne : m.scenes ≠ [] := by
        intro he
        rw [hc, he] at h
        simp at h
      simp only [smStep, smPop, hc, pyPopLast, if_neg hne]
      exact ⟨_, _, rfl, rfl⟩
  | switch s =>
    cases hc : m.current with
    | none =>
      simp only [smStep, smSwitch, hc]
      refine ⟨_, _, rfl, ?_⟩
      simp [List.getLast?_concat]
    | some c =>
      have hne : m.scenes ≠ [] := by
        intro he
        rw [hc, he] at h
        simp at h
      simp only [smStep, smSwitch, hc, pyPopLast, if_neg hne]
      refine ⟨_, _, rfl, ?_⟩
      simp [List.getLast?_concat]

/-- Any run from a state satisfying the top-of-stack property succeeds and
ends in a state satisfying it. -/
theorem smRun_total_inv (ops : List SceneOp) (m : SceneManager)
    (h : m.current = m.scenes.getLast?) :
    ∃ m2 evs, smRun m ops = some (m2, evs) ∧ m2.current = m2.scenes.getLast? := by
  induction ops generalizing m with
  | nil => exact ⟨m, [], rfl, h⟩
  | cons op ops ih =>
    obtain ⟨m1, evs, hstep, h1⟩ := smStep_total_inv m h op
    obtain ⟨m2, evs2, hrun, h2⟩ := ih m1 h1
    exact ⟨m2, evs ++ evs2, by simp [smRun, hstep, hrun], h2⟩

/-! ### Claim C6: `current` is always the top of the stack -/

/-- C6.  After every finite sequence of push/pop/switch transitions from
the empty scene manager, the run succeeds and `current` equals the last
element of `scenes` when the list is non-empty, and `none` when it is
empty (`List.getLast?`). -/
theorem current_is_top_of_stack (ops : List SceneOp) :
    ∃ m evs, smRun smInit ops = some (m, evs) ∧ m.current = m.scenes.getLast? :=
  smRun_total_inv ops smInit rfl

/-- Witness for C6 on a concrete transition sequence. -/
theorem current_is_top_of_stack_witness :
    smRun smInit [SceneOp.push 1, SceneOp.push 2, SceneOp.pop] =
      some (⟨[1], some 1⟩,
        [LifecycleEv.enter 1, LifecycleEv.exit 1, LifecycleEv.enter 2,
         LifecycleEv.exit 2, LifecycleEv.enter 1]) ∧
    (⟨[1], some 1⟩ : SceneManager).current = ([1] : List SceneId).getLast? := by
  have h := current_is_top_of_stack [SceneOp.push 1, SceneOp.push 2, SceneOp.pop]
  obtain ⟨m, evs, hrun, hinv⟩ := h
  have hev : smRun smInit [SceneOp.push 1, SceneOp.push 2, SceneOp.pop] =
      some (⟨[1], some 1⟩,
        [LifecycleEv.enter 1, LifecycleEv.exit 1, LifecycleEv.enter 2,
         LifecycleEv.exit 2, LifecycleEv.enter 1]) := by decide
  exact ⟨hev, by decide⟩

/-! ### Claim C3: empty-stack operations are safe no-ops -/

/-- C3.  On an empty scene manager, `pop()` succeeds, changes nothing and
emits no lifecycle calls; `handle_events`, `update` and `draw` dispatch to
no scene; and `pop()` on a stack of depth 1 succeeds, calls that scene's
`on_exit` only, and leaves the empty stack with no current scene. -/
theorem empty_stack_ops_are_noops :
    smPop smInit = some (smInit, []) ∧
    smHandleEvents smInit = none ∧
    smUpdate smInit = none ∧
    smDraw smInit = none ∧
    ∀ s : SceneId, smPop ⟨[s], some s⟩ = some (⟨[], none⟩, [LifecycleEv.exit s]) :=
  ⟨rfl, rfl, rfl, rfl, fun _ => rfl⟩

/-! ### Claim C4: `switch` replaces the top of the stack in place -/

/-- C4.  When the current scene is `A` (on top of the stack), `switch B`
removes `A`, appends `B`, makes `B` current, calls `A`'s `on_exit` exactly
once and then `B`'s `on_enter` exactly once; the entries below `A` and the
stack depth are unchanged. -/
theorem switch_replaces_top (below : List SceneId) (A B : SceneId) :
    smSwitch ⟨below ++ [A], some A⟩ B =
      some (⟨below ++ [B], some B⟩, [LifecycleEv.exit A, LifecycleEv.enter B]) ∧
    (below ++ [B]).length = (below ++ [A]).length ∧
    exitCount A [LifecycleEv.exit A, LifecycleEv.enter B] = 1 ∧
    enterCount B [LifecycleEv.exit A, LifecycleEv.enter B] = 1 := by
  refine ⟨?_, by simp, ?_, ?_⟩
  · have hne : below ++ [A] ≠ [] := by simp
    simp [smSwitch, pyPopLast, if_neg hne, List.dropLast_concat]
  · simp [exitCount, List.count_cons]
  · simp [enterCount, List.count_cons]

/-- Witness for C4 with one scene below the replaced one. -/
theorem switch_replaces_top_witness :
    smSwitch ⟨[7, 1], some 1⟩ 2 =
      some (⟨[7, 2], some 2⟩, [LifecycleEv.exit 1, LifecycleEv.enter 2]) :=
  (switch_replaces_top [7] 1 2).1

/-! ### Claims C5 and C7: the main loop and `dt` -/

/-- The per-iteration actions never include the backend shutdown. -/
theorem shutdown_not_mem_iterActs (f : Frame) :
    GameAct.shutdown ∉ iterActs f := by
  simp [iterActs]

/-- C5.  While `running`, each iteration performs poll, quit-scan, event
forwarding, update, clear-and-draw, present and pacing in that order
(`iterActs`); a quit event in frame `f` does not abort `f`'s iteration
(all its actions still execute), no further iteration runs, and exactly
one backend shutdown follows before `run()` returns. -/
theorem quit_completes_frame_then_single_shutdown (pre : List Frame) (f : Frame)
    (rest : List Frame) (hpre : ∀ g ∈ pre, g.hasQuit = false)
    (hf : f.hasQuit = true) :
    gameRun true (pre ++ f :: rest) =
      some ((pre ++ [f]).flatMap iterActs ++ [GameAct.shutdown]) ∧
    ((pre ++ [f]).flatMap iterActs ++ [GameAct.shutdown]).count GameAct.shutdown
      = 1 := by
  constructor
  · induction pre with
    | nil =>
      simp only [List.nil_append, gameRun, hf, Bool.not_true, Option.map_some',
        List.flatMap_cons, List.flatMap_nil, List.append_nil]
    | cons g pre ih =>
      have hg : g.hasQuit = false := hpre g (by simp)
      have ih2 := ih (fun x hx => hpre x (by simp [hx]))
      simp only [List.cons_append, gameRun, hg, Bool.not_false, List.append_eq,
        ih2, Option.map_some', List.flatMap_cons, List.append_assoc]
  · rw [List.count_append, List.count_eq_zero.mpr, Nat.zero_add]
    · rfl
    · intro hmem
      obtain ⟨g, _, hgmem⟩ := List.mem_flatMap.mp hmem
      exact shutdown_not_mem_iterActs g hgmem

/-- Witness for C5: one quit-free frame, then a frame with a quit event,
then a further frame that is never executed. -/
theorem quit_completes_frame_then_single_shutdown_witness :
    gameRun true [⟨false, 16⟩, ⟨true, 16⟩, ⟨false, 16⟩] =
      some (([⟨false, 16⟩, ⟨true, 16⟩] : List Frame).flatMap iterActs ++
        [GameAct.shutdown]) :=
  (quit_completes_frame_then_single_shutdown [⟨false, 16⟩] ⟨true, 16⟩
    [⟨false, 16⟩] (by intro g hg; rw [List.mem_singleton] at hg; subst hg; rfl)
    rfl).1

/-- C7 counterexample.  `Game.update` passes
`self.clock.get_time() / 1000.0` to the scene stack without clamping: a
clock reading of -16 ms reaches the scene stack `update` as a negative
`dt`, contradicting the clamp-to-zero claim. -/
theorem dt_not_clamped_cex :
    gameDt (-16) < 0 ∧
    GameAct.updateScenes (gameDt (-16)) ∈ iterActs ⟨false, -16⟩ := by
  constructor
  · rw [gameDt]
    norm_num
  · simp [iterActs]

/-- C7 amended.  The `dt` forwarded to the scene stack is the raw clock
reading divided by 1000, unclamped: it is nonnegative exactly for
nonnegative clock readings, and a negative reading from a non-monotonic
clock propagates as a negative `dt`. -/
theorem dt_sign_propagates (ms : ℤ) :
    (0 ≤ ms → 0 ≤ gameDt ms) ∧ (ms < 0 → gameDt ms < 0) := by
  constructor
  · intro h
    rw [gameDt]
    apply div_nonneg _ (by norm_num)
    exact_mod_cast h
  · intro h
    rw [gameDt]
    apply div_neg_of_neg_of_pos _ (by norm_num)
    exact_mod_cast h

/-- Witness for the amended C7 at clock readings 16 and -16 ms. -/
theorem dt_sign_propagates_witness :
    0 ≤ gameDt 16 ∧ gameDt (-16) < 0 :=
  ⟨(dt_sign_propagates 16).1 (by norm_num),
   (dt_sign_propagates (-16)).2 (by norm_num)⟩

/-! ### Helper lemmas for lifecycle counting -/

/-- Every successful step emits exactly the `on_exit` of the pre-step
current scene (if any) followed by the `on_enter` of the post-step current
scene (if any). -/
theorem smStep_shape (m m1 : SceneManager) (op : SceneOp)
    (evs : List LifecycleEv) (h : smStep m op = some (m1, evs)) :
    evs = exitEvOf m.current ++ enterEvOf m1.current := by
  cases op with
  | push s' =>
    cases hc : m.current with
    | none =>
      simp only [smStep, smPush, hc, Option.some.injEq, Prod.mk.injEq] at h
      obtain ⟨hm1, hevs⟩ := h
      subst hevs
      rw [← hm1]
      rfl
    | some c =>
      simp only [smStep, smPush, hc, Option.some.injEq, Prod.mk.injEq] at h
      obtain ⟨hm1, hevs⟩ := h
      subst hevs
      rw [← hm1]
      rfl
  | pop =>
    cases hc : m.current with
    | none =>
      simp only [smStep, smPop, hc] at h
      cases hcur : m.scenes.getLast? <;>
        simp only [hcur, Option.some.injEq, Prod.mk.injEq] at h <;>
        obtain ⟨hm1, hevs⟩ := h <;>
        subst hevs <;>
        rw [← hm1] <;>
        rfl
    | some c =>
      simp only [smStep, smPop, hc] at h
      cases hps : pyPopLast m.scenes with
      | none =>
        rw [hps] at h
        exact absurd h (by simp)
      | some rest =>
        rw [hps] at h
        cases hcur : rest.getLast? <;>
          simp only [hcur, Option.some.injEq, Prod.mk.injEq] at h <;>
          obtain ⟨hm1, hevs⟩ := h <;>
          subst hevs <;>
          rw [← hm1] <;>
          rfl
  | switch s' =>
    cases hc : m.current with
    | none =>
      simp only [smStep, smSwitch, hc, Option.some.injEq, Prod.mk.injEq] at h
      obtain ⟨hm1, hevs⟩ := h
      subst hevs
      rw [← hm1]
      rfl
    | some c =>
      simp only [smStep, smSwitch, hc] at h
      cases hps : pyPopLast m.scenes with
      | none =>
        rw [hps] at h
        exact absurd h (by simp)
      | some rest =>
        rw [hps] at h
        simp only [Option.some.injEq, Prod.mk.injEq] at h
        obtain ⟨hm1, hevs⟩ := h
        subst hevs
        rw [← hm1]
        rfl

/-- `on_enter` counts of the two event groups of one step. -/
theorem enterCount_exitEvOf (s : SceneId) (o : Option SceneId) :
    enterCount s (exitEvOf o) = 0 := by
  cases o <;> simp [exitEvOf, enterCount]

/-- The `on_enter` group contains one call to `s` exactly when the
installed current scene is `s`. -/
theorem enterCount_enterEvOf (s : SceneId) (o : Option SceneId) :
    enterCount s (enterEvOf o) = if o = some s then 1 else 0 := by
  cases o with
  | none => simp [enterEvOf, enterCount]
  | some c =>
    by_cases hcs : c = s
    · subst hcs
      simp [enterEvOf, enterCount]
    · rw [enterEvOf, enterCount, if_neg (by simp [hcs]), List.count_eq_zero]
      intro hmem
      rw [List.mem_singleton] at hmem
      exact hcs (LifecycleEv.enter.inj hmem).symm

/-- `on_exit` counts of the two event groups of one step. -/
theorem exitCount_enterEvOf (s : SceneId) (o : Option SceneId) :
    exitCount s (enterEvOf o) = 0 := by
  cases o <;> simp [enterEvOf, exitCount]

/-- The `on_exit` group contains one call to `s` exactly when the
outgoing current scene is `s`. -/
theorem exitCount_exitEvOf (s : SceneId) (o : Option SceneId) :
    exitCount s (exitEvOf o) = if o = some s then 1 else 0 := by
  cases o with
  | none => simp [exitEvOf, exitCount]
  | some c =>
    by_cases hcs : c = s
    · subst hcs
      simp [exitEvOf, exitCount]
    · rw [exitEvOf, exitCount, if_neg (by simp [hcs]), List.count_eq_zero]
      intro hmem
      rw [List.mem_singleton] at hmem
      exact hcs (LifecycleEv.exit.inj hmem).symm

/-- Counts are additive over concatenated event lists. -/
theorem enterCount_append (s : SceneId) (l1 l2 : List LifecycleEv) :
    enterCount s (l1 ++ l2) = enterCount s l1 + enterCount s l2 :=
  List.count_append _ _ _

/-- Counts are additive over concatenated event lists. -/
theorem exitCount_append (s : SceneId) (l1 l2 : List LifecycleEv) :
    exitCount s (l1 ++ l2) = exitCount s l1 + exitCount s l2 :=
  List.count_append _ _ _

/-- In every step's event list the exit group precedes the enter group. -/
theorem exitsThenEnters_shape (o o' : Option SceneId) :
    exitsThenEnters (exitEvOf o ++ enterEvOf o') = true := by
  cases o <;> cases o' <;> rfl

/-- `smActivations` computes the number of `on_enter` calls of a run. -/
theorem smRun_activations (s : SceneId) (ops : List SceneOp)
    (m m2 : SceneManager) (evs : List LifecycleEv)
    (h : smRun m ops = some (m2, evs)) :
    smActivations s m ops = some (enterCount s evs) := by
  induction ops generalizing m evs with
  | nil =>
    simp only [smRun, Option.some.injEq, Prod.mk.injEq] at h
    obtain ⟨hm, hevs⟩ := h
    subst hevs
    simp [smActivations, enterCount]
  | cons op ops ih =>
    cases hstep : smStep m op with
    | none =>
      simp only [smRun, hstep] at h
      exact Option.noConfusion h
    | some p =>
      obtain ⟨m1, evs1⟩ := p
      simp only [smRun, hstep] at h
      cases hrun : smRun m1 ops with
      | none =>
        simp only [hrun] at h
        exact Option.noConfusion h
      | some q =>
        obtain ⟨m2', evs2⟩ := q
        simp only [hrun, Option.some.injEq, Prod.mk.injEq] at h
        obtain ⟨hm2, hevs⟩ := h
        subst hevs
        subst hm2
        have hshape := smStep_shape m m1 op evs1 hstep
        subst hshape
        simp only [smActivations, hstep, ih m1 evs2 hrun, Option.map_some,
          enterCount_append, enterCount_exitEvOf, enterCount_enterEvOf,
          Option.map_some', Option.some.injEq]
        omega

/-- `smDeactivations` computes the number of `on_exit` calls of a run. -/
theorem smRun_deactivations (s : SceneId) (ops : List SceneOp)
    (m m2 : SceneManager) (evs : List LifecycleEv)
    (h : smRun m ops = some (m2, evs)) :
    smDeactivations s m ops = some (exitCount s evs) := by
  induction ops generalizing m evs with
  | nil =>
    simp only [smRun, Option.some.injEq, Prod.mk.injEq] at h
    obtain ⟨hm, hevs⟩ := h
    subst hevs
    simp [smDeactivations, exitCount]
  | cons op ops ih =>
    cases hstep : smStep m op with
    | none =>
      simp only [smRun, hstep] at h
      exact Option.noConfusion h
    | some p =>
      obtain ⟨m1, evs1⟩ := p
      simp only [smRun, hstep] at h
      cases hrun : smRun m1 ops with
      | none =>
        simp only [hrun] at h
        exact Option.noConfusion h
      | some q =>
        obtain ⟨m2', evs2⟩ := q
        simp only [hrun, Option.some.injEq, Prod.mk.injEq] at h
        obtain ⟨hm2, hevs⟩ := h
        subst hevs
        subst hm2
        have hshape := smStep_shape m m1 op evs1 hstep
        subst hshape
        simp only [smDeactivations, hstep, ih m1 evs2 hrun, Option.map_some,
          exitCount_append, exitCount_enterEvOf, exitCount_exitEvOf,
          Option.map_some', Option.some.injEq]
        omega

/-- Enter/exit call balance across a run: the difference between the two
counts for a scene is exactly its membership change in the `current`
slot. -/
theorem smRun_balance (s : SceneId) (ops : List SceneOp)
    (m m2 : SceneManager) (evs : List LifecycleEv)
    (h : smRun m ops = some (m2, evs)) :
    enterCount s evs + (if m.current = some s then 1 else 0) =
      exitCount s evs + (if m2.current = some s then 1 else 0) := by
  induction ops generalizing m evs with
  | nil =>
    simp only [smRun, Option.some.injEq, Prod.mk.injEq] at h
    obtain ⟨hm, hevs⟩ := h
    subst hevs
    subst hm
    simp [enterCount, exitCount]
  | cons op ops ih =>
    cases hstep : smStep m op with
    | none =>
      simp only [smRun, hstep] at h
      exact Option.noConfusion h
    | some p =>
      obtain ⟨m1, evs1⟩ := p
      simp only [smRun, hstep] at h
      cases hrun : smRun m1 ops with
      | none =>
        simp only [hrun] at h
        exact Option.noConfusion h
      | some q =>
        obtain ⟨m2', evs2⟩ := q
        simp only [hrun, Option.some.injEq, Prod.mk.injEq] at h
        obtain ⟨hm2, hevs⟩ := h
        subst hevs
        subst hm2
        have hshape := smStep_shape m m1 op evs1 hstep
        subst hshape
        have hih := ih m1 evs2 hrun
        simp only [enterCount_append, exitCount_append, enterCount_exitEvOf,
          enterCount_enterEvOf, exitCount_enterEvOf, exitCount_exitEvOf]
        omega

/-! ### Claim C1: lifecycle calls happen exactly once per (de)activation -/

/-- C1.  For every sequence of push/pop/switch transitions from the empty
scene manager and every scene `s`: the number of `on_enter` calls `s`
receives equals the number of transitions that made `s` current
(`smActivations`), the number of `on_exit` calls equals the number of
transitions executed while `s` was current (`smDeactivations`); the two
counts are equal when `s` is not current at the end and `on_enter` leads
by exactly one when it is; and within every single transition all
`on_exit` calls precede all `on_enter` calls. -/
theorem scene_lifecycle_exactly_once (ops : List SceneOp) (s : SceneId)
    (m : SceneManager) (evs : List LifecycleEv)
    (h : smRun smInit ops = some (m, evs)) :
    smActivations s smInit ops = some (enterCount s evs) ∧
    smDeactivations s smInit ops = some (exitCount s evs) ∧
    (m.current = some s → enterCount s evs = exitCount s evs + 1) ∧
    (m.current ≠ some s → enterCount s evs = exitCount s evs) ∧
    (∀ (m0 m1 : SceneManager) (op : SceneOp) (tevs : List LifecycleEv),
      smStep m0 op = some (m1, tevs) → exitsThenEnters tevs = true) := by
  have hbal := smRun_balance s ops smInit m evs h
  have h0 : (if smInit.current = some s then 1 else 0) = 0 := by
    simp [smInit]
  rw [h0] at hbal
  refine ⟨smRun_activations s ops smInit m evs h,
    smRun_deactivations s ops smInit m evs h, ?_, ?_, ?_⟩
  · intro hcur
    rw [if_pos hcur] at hbal
    omega
  · intro hcur
    rw [if_neg hcur] at hbal
    omega
  · intro m0 m1 op tevs hstep
    rw [smStep_shape m0 m1 op tevs hstep]
    exact exitsThenEnters_shape _ _

/-- Witness for C1 on the sequence push 1, push 2, pop: scene 1 is current
at the end with two `on_enter` and one `on_exit` calls recorded. -/
theorem scene_lifecycle_exactly_once_witness :
    smActivations 1 smInit [SceneOp.push 1, SceneOp.push 2, SceneOp.pop] =
      some (enterCount 1
        [LifecycleEv.enter 1, LifecycleEv.exit 1, LifecycleEv.enter 2,
         LifecycleEv.exit 2, LifecycleEv.enter 1]) :=
  (scene_lifecycle_exactly_once [SceneOp.push 1, SceneOp.push 2, SceneOp.pop] 1
    ⟨[1], some 1⟩
    [LifecycleEv.enter 1, LifecycleEv.exit 1, LifecycleEv.enter 2,
     LifecycleEv.exit 2, LifecycleEv.enter 1] (by decide)).1

/-! ### Helper lemmas -/

/-- Python `//` by 2 agrees with the rational floor of the halved value. -/
theorem fdiv_two_eq_floor (a : ℤ) : Int.fdiv a 2 = ⌊(a : ℚ) / 2⌋ := by
  have h : ((2 : ℕ) : ℚ) = (2 : ℚ) := by norm_num
  rw [← h, Rat.floor_intCast_div_natCast a 2, Int.fdiv_eq_ediv a (by norm_num)]
  norm_num

/-- Python `int()` is the floor on nonnegative values. -/
theorem pyInt_eq_floor (q : ℚ) (h : 0 ≤ q) : pyInt q = ⌊q⌋ := by
  rw [pyInt, if_neg (not_lt.mpr h)]

/-- Python `min` agrees with the order-theoretic `min` on `ℚ`. -/
theorem pyMin_eq_min (a b : ℚ) : pyMin a b = min a b := (min_def a b).symm

/-! ### Claim C2: geometry of `DisplayManager.present` -/

/-- C2.  For every window size `(Wn, Hn)` with `Wn, Hn ≥ 1` and internal
target size `(Sw, Sh)` with `Sw, Sh ≥ 1`, `present()` computes
`scale = min(Wn/Sw, Hn/Sh)`, `scaled_w = ⌊Sw*scale⌋`,
`scaled_h = ⌊Sh*scale⌋`, `x = ⌊(Wn - scaled_w)/2⌋`,
`y = ⌊(Hn - scaled_h)/2⌋`; in particular for design resolution 320×180,
window 640×480 yields scale 2, scaled size (640, 360), offsets (0, 60),
and window 100×100 yields scale 0.3125, scaled size (100, 56),
offsets (0, 22). -/
theorem present_uniform_scale_and_letterbox (Sw Sh Wn Hn : ℕ)
    (hSw : 1 ≤ Sw) (hSh : 1 ≤ Sh) (hWn : 1 ≤ Wn) (hHn : 1 ≤ Hn) :
    (presentGeometry Sw Sh Wn Hn =
      some { scale := min ((Wn:ℚ)/(Sw:ℚ)) ((Hn:ℚ)/(Sh:ℚ)),
             scaled_w := ⌊(Sw:ℚ) * min ((Wn:ℚ)/(Sw:ℚ)) ((Hn:ℚ)/(Sh:ℚ))⌋,
             scaled_h := ⌊(Sh:ℚ) * min ((Wn:ℚ)/(Sw:ℚ)) ((Hn:ℚ)/(Sh:ℚ))⌋,
             x := ⌊((Wn:ℚ) - (⌊(Sw:ℚ) * min ((Wn:ℚ)/(Sw:ℚ)) ((Hn:ℚ)/(Sh:ℚ))⌋ : ℤ)) / 2⌋,
             y := ⌊((Hn:ℚ) - (⌊(Sh:ℚ) * min ((Wn:ℚ)/(Sw:ℚ)) ((Hn:ℚ)/(Sh:ℚ))⌋ : ℤ)) / 2⌋ }) ∧
    presentGeometry 320 180 640 480 = some ⟨2, 640, 360, 0, 60⟩ ∧
    presentGeometry 320 180 100 100 = some ⟨5/16, 100, 56, 0, 22⟩ := by
  refine ⟨?_, ?_, ?_⟩
  · have hne : ¬(Sw = 0 ∨ Sh = 0) := by omega
    rw [presentGeometry, if_neg hne, pyMin_eq_min]
    simp only []
    rw [pyInt_eq_floor _ (by positivity), pyInt_eq_floor _ (by positivity),
      fdiv_two_eq_floor, fdiv_two_eq_floor]
    push_cast
    rfl
  · rw [presentGeometry, if_neg (by norm_num), pyMin, if_pos (by push_cast; norm_num)]
    norm_num
    rw [pyInt, if_neg (by norm_num), pyInt, if_neg (by norm_num)]
    norm_num
    decide
  · rw [presentGeometry, if_neg (by norm_num), pyMin, if_pos (by push_cast; norm_num)]
    norm_num
    rw [pyInt, if_neg (by norm_num), pyInt, if_neg (by norm_num)]
    norm_num
    decide

/-- Witness for C2 at the design resolution 320×180 and window 640×480. -/
theorem present_uniform_scale_and_letterbox_witness :
    presentGeometry 320 180 640 480 = some ⟨2, 640, 360, 0, 60⟩ :=
  (present_uniform_scale_and_letterbox 320 180 640 480
    (by norm_num) (by norm_num) (by norm_num) (by norm_num)).2.1

/-! ### Claim C8: `present()` and degenerate window sizes -/

/-- C8 counterexample.  The code does not clamp the reported window
dimensions to at least 1 pixel: a window of width 0 produces a different
geometry than a window of width 1 (a clamping implementation would make
them identical), and for a 0×0 window the scale is exactly 0, not the
value obtained from clamped 1-pixel dimensions. -/
theorem present_no_window_clamp_cex :
    presentGeometry 320 180 0 180 ≠ presentGeometry 320 180 1 180 ∧
    presentGeometry 320 180 0 0 = some ⟨0, 0, 0, 0, 0⟩ := by
  constructor
  · rw [presentGeometry, presentGeometry, if_neg (by norm_num), if_neg (by norm_num),
      pyMin, pyMin, if_pos (by push_cast; norm_num), if_pos (by push_cast; norm_num)]
    norm_num
  · rw [presentGeometry, if_neg (by norm_num), pyMin, if_pos (by push_cast; norm_num)]
    norm_num
    have h0 : pyInt 0 = 0 := by
      rw [pyInt, if_neg (by norm_num)]
      norm_num
    rw [h0]
    exact ⟨rfl, by decide⟩

/-- C8 amended.  `present()` does not clamp the window dimensions; no
division error is possible anyway because the scale ratio divides by the
fixed internal surface dimensions, which are at least 1: the computation
succeeds for every window size, including 0 in either dimension. -/
theorem present_total_without_clamp (Sw Sh Wn Hn : ℕ)
    (hSw : 1 ≤ Sw) (hSh : 1 ≤ Sh) :
    (presentGeometry Sw Sh Wn Hn).isSome = true := by
  rw [presentGeometry, if_neg (by omega)]
  rfl

/-- Witness for the amended C8 at a fully degenerate 0×0 window. -/
theorem present_total_without_clamp_witness :
    (presentGeometry 320 180 0 0).isSome = true :=
  present_total_without_clamp 320 180 0 0 (by norm_num) (by norm_num)

/-! ### Helper lemmas for the asset cache -/

/-- A cache hit returns the cached handle and leaves the state unchanged. -/
theorem load_image_cached (disk : AssetPath → Nat) (m : AssetManager)
    (name : String) (v : Nat) (h : m.images.lookup name = some v) :
    load_image disk m name = (v, m) := by
  simp only [load_image, h]

/-- A cache hit returns the cached handle and leaves the state unchanged. -/
theorem load_sound_cached (disk : AssetPath → Nat) (m : AssetManager)
    (name : String) (v : Nat) (h : m.sounds.lookup name = some v) :
    load_sound disk m name = (v, m) := by
  simp only [load_sound, h]

/-- A cache hit returns the cached handle and leaves the state unchanged. -/
theorem load_icon_cached (disk : AssetPath → Nat) (m : AssetManager)
    (v : Nat) (h : m.images.lookup "icon" = some v) :
    load_icon disk m = (v, m) := by
  simp only [load_icon, h]

/-- After `load_image`, the returned handle is cached under `name`. -/
theorem load_image_lookup_post (disk : AssetPath → Nat) (m : AssetManager)
    (name : String) :
    (load_image disk m name).2.images.lookup name =
      some (load_image disk m name).1 := by
  cases hl : m.images.lookup name with
  | some v =>
    simp only [load_image, hl]
  | none =>
    simp only [load_image, hl]
    rw [List.lookup]
    simp

/-- After `load_sound`, the returned handle is cached under `name`. -/
theorem load_sound_lookup_post (disk : AssetPath → Nat) (m : AssetManager)
    (name : String) :
    (load_sound disk m name).2.sounds.lookup name =
      some (load_sound disk m name).1 := by
  cases hl : m.sounds.lookup name with
  | some v =>
    simp only [load_sound, hl]
  | none =>
    simp only [load_sound, hl]
    rw [List.lookup]
    simp

/-- After `load_icon`, the returned handle is cached under `"icon"`. -/
theorem load_icon_lookup_post (disk : AssetPath → Nat) (m : AssetManager) :
    (load_icon disk m).2.images.lookup "icon" =
      some (load_icon disk m).1 := by
  cases hl : m.images.lookup "icon" with
  | some v =>
    simp only [load_icon, hl]
  | none =>
    simp only [load_icon, hl]
    rw [List.lookup]
    simp

/-- Loading an image twice equals loading it once. -/
theorem load_image_idem (disk : AssetPath → Nat) (m : AssetManager)
    (name : String) :
    load_image disk (load_image disk m name).2 name =
      load_image disk m name := by
  rw [load_image_cached disk _ name _ (load_image_lookup_post disk m name)]

/-- Loading a sound twice equals loading it once. -/
theorem load_sound_idem (disk : AssetPath → Nat) (m : AssetManager)
    (name : String) :
    load_sound disk (load_sound disk m name).2 name =
      load_sound disk m name := by
  rw [load_sound_cached disk _ name _ (load_sound_lookup_post disk m name)]

/-- Loading the icon twice equals loading it once. -/
theorem load_icon_idem (disk : AssetPath → Nat) (m : AssetManager) :
    load_icon disk (load_icon disk m).2 = load_icon disk m := by
  rw [load_icon_cached disk _ _ (load_icon_lookup_post disk m)]

/-- One `load_icon` call preserves cache coverage and fetch uniqueness. -/
theorem load_icon_preserves (disk : AssetPath → Nat) (m : AssetManager)
    (h : amCovered m) (hn : m.fetched.Nodup) :
    amCovered (load_icon disk m).2 ∧ (load_icon disk m).2.fetched.Nodup := by
  cases hl : m.images.lookup "icon" with
  | some v =>
    simp only [load_icon, hl]
    exact ⟨h, hn⟩
  | none =>
    simp only [load_icon, hl]
    refine ⟨⟨?_, ?_, ?_⟩, ?_⟩
    · intro hmem
      rw [List.lookup]
      simp
    · intro n hmem
      rw [List.mem_append] at hmem
      cases hmem with
      | inl hold =>
        rw [List.lookup]
        cases hbe : (n == "icon") <;> simp [hbe, h.2.1 n hold]
      | inr hnew =>
        simp at hnew
    · intro n hmem
      rw [List.mem_append] at hmem
      cases hmem with
      | inl hold => exact h.2.2 n hold
      | inr hnew => simp at hnew
    · apply hn.append (by simp)
      intro a ha hb
      rw [List.mem_singleton] at hb
      subst hb
      have hc := h.1 ha
      rw [hl] at hc
      simp at hc

/-- One `load_image` call preserves cache coverage and fetch uniqueness. -/
theorem load_image_preserves (disk : AssetPath → Nat) (m : AssetManager)
    (name : String) (h : amCovered m) (hn : m.fetched.Nodup) :
    amCovered (load_image disk m name).2 ∧
      (load_image disk m name).2.fetched.Nodup := by
  cases hl : m.images.lookup name with
  | some v =>
    simp only [load_image, hl]
    exact ⟨h, hn⟩
  | none =>
    simp only [load_image, hl]
    refine ⟨⟨?_, ?_, ?_⟩, ?_⟩
    · intro hmem
      rw [List.mem_append] at hmem
      cases hmem with
      | inl hold =>
        rw [List.lookup]
        cases hbe : ("icon" == name) <;> simp [hbe, h.1 hold]
      | inr hnew =>
        simp at hnew
    · intro n hmem
      rw [List.mem_append] at hmem
      cases hmem with
      | inl hold =>
        rw [List.lookup]
        cases hbe : (n == name) <;> simp [hbe, h.2.1 n hold]
      | inr hnew =>
        rw [List.mem_singleton] at hnew
        obtain rfl := AssetPath.texture.inj hnew
        rw [List.lookup]
        simp
    · intro n hmem
      rw [List.mem_append] at hmem
      cases hmem with
      | inl hold => exact h.2.2 n hold
      | inr hnew => simp at hnew
    · apply hn.append (by simp)
      intro a ha hb
      rw [List.mem_singleton] at hb
      subst hb
      have hc := h.2.1 name ha
      rw [hl] at hc
      simp at hc

/-- One `load_sound` call preserves cache coverage and fetch uniqueness. -/
theorem load_sound_preserves (disk : AssetPath → Nat) (m : AssetManager)
    (name : String) (h : amCovered m) (hn : m.fetched.Nodup) :
    amCovered (load_sound disk m name).2 ∧
      (load_sound disk m name).2.fetched.Nodup := by
  cases hl : m.sounds.lookup name with
  | some v =>
    simp only [load_sound, hl]
    exact ⟨h, hn⟩
  | none =>
    simp only [load_sound, hl]
    refine ⟨⟨?_, ?_, ?_⟩, ?_⟩
    · intro hmem
      rw [List.mem_append] at hmem
      cases hmem with
      | inl hold => exact h.1 hold
      | inr hnew => simp at hnew
    · intro n hmem
      rw [List.mem_append] at hmem
      cases hmem with
      | inl hold => exact h.2.1 n hold
      | inr hnew => simp at hnew
    · intro n hmem
      rw [List.mem_append] at hmem
      cases hmem with
      | inl hold =>
        rw [List.lookup]
        cases hbe : (n == name) <;> simp [hbe, h.2.2 n hold]
      | inr hnew =>
        rw [List.mem_singleton] at hnew
        obtain rfl := AssetPath.sound.inj hnew
        rw [List.lookup]
        simp
    · apply hn.append (by simp)
      intro a ha hb
      rw [List.mem_singleton] at hb
      subst hb
      have hc := h.2.2 name ha
      rw [hl] at hc
      simp at hc

/-- Any sequence of asset calls from any covered state preserves coverage
and fetch uniqueness. -/
theorem amRun_preserves (disk : AssetPath → Nat) (ops : List AssetOp)
    (m : AssetManager) (h : amCovered m) (hn : m.fetched.Nodup) :
    amCovered (amRun disk m ops) ∧ (amRun disk m ops).fetched.Nodup := by
  induction ops generalizing m with
  | nil => exact ⟨h, hn⟩
  | cons op ops ih =>
    cases op with
    | loadIcon =>
      obtain ⟨h1, hn1⟩ := load_icon_preserves disk m h hn
      exact ih _ h1 hn1
    | loadImage name =>
      obtain ⟨h1, hn1⟩ := load_image_preserves disk m name h hn
      exact ih _ h1 hn1
    | loadSound name =>
      obtain ⟨h1, hn1⟩ := load_sound_preserves disk m name h hn
      exact ih _ h1 hn1

/-! ### Claim C9: each asset is fetched from storage at most once -/

/-- C9.  Across any sequence of asset-manager calls from a fresh manager,
the log of backing-storage fetches never repeats a path (each distinct
asset location is read at most once); calling any loader a second time
with the same name returns the identical cached handle and leaves the
state unchanged (load twice equals load once); and from the fresh manager
a first `load_image name` fetches `assets/textures/name` exactly once and
caches the returned handle under `name`. -/
theorem asset_fetched_at_most_once (disk : AssetPath → Nat)
    (ops : List AssetOp) (m : AssetManager) (name : String) :
    (amRun disk amInit ops).fetched.Nodup ∧
    load_image disk (load_image disk m name).2 name = load_image disk m name ∧
    load_sound disk (load_sound disk m name).2 name = load_sound disk m name ∧
    load_icon disk (load_icon disk m).2 = load_icon disk m ∧
    load_image disk amInit name =
      (disk (AssetPath.texture name),
        ⟨[(name, disk (AssetPath.texture name))], [],
         [AssetPath.texture name]⟩) :=
  ⟨(amRun_preserves disk ops amInit (by simp [amCovered, amInit]) (by simp [amInit])).2,
   load_image_idem disk m name, load_sound_idem disk m name,
   load_icon_idem disk m, rfl⟩

/-! ### Claim C10: `load_icon` and `load_image` share the `"icon"` key -/

/-- C10.  `load_icon` stores the favicon under the key `"icon"` of the
same dictionary `load_image` uses: after `load_icon()`, a call
`load_image("icon")` returns the favicon handle (not the texture at
`assets/textures/icon`) without fetching anything; conversely after
`load_image("icon")`, a call `load_icon()` returns the texture handle,
not the favicon. -/
theorem icon_cache_key_collision (disk : AssetPath → Nat)
    (hd : disk AssetPath.favicon ≠ disk (AssetPath.texture "icon")) :
    load_image disk (load_icon disk amInit).2 "icon" =
      (disk AssetPath.favicon, (load_icon disk amInit).2) ∧
    (load_image disk (load_icon disk amInit).2 "icon").1 ≠
      disk (AssetPath.texture "icon") ∧
    load_icon disk (load_image disk amInit "icon").2 =
      (disk (AssetPath.texture "icon"), (load_image disk amInit "icon").2) ∧
    (load_icon disk (load_image disk amInit "icon").2).1 ≠
      disk AssetPath.favicon := by
  refine ⟨rfl, ?_, rfl, ?_⟩
  · intro hcontra
    exact hd hcontra
  · intro hcontra
    exact hd hcontra.symm

/-- Witness for C10 with a sample backing store. -/
theorem icon_cache_key_collision_witness :
    load_image sampleDisk (load_icon sampleDisk amInit).2 "icon" =
      (sampleDisk AssetPath.favicon, (load_icon sampleDisk amInit).2) :=
  (icon_cache_key_collision sampleDisk (by decide)).1
